import Mathlib

/-!
Shallow embedding of the ecc1/spi SPI device driver (Go) in Lean 4.

The embedding follows the current source `spi.go` together with the
spidev header constants file.  External effects (the OS open/flock/close
calls, the GPIO chip-select line, and the ioctl device-control call) are
modelled by explicit environments supplying each call's result, and every
operation additionally returns the trace of external events it issued, in
order, so that sequencing properties can be stated.
-/

namespace Spi

/-- Go conversion uint8(n) for a Go int n: truncation modulo 2^8
(two's-complement wrap for negative n). -/
def uint8Int (n : Int) : Nat := (n.emod (2 ^ 8)).toNat

/-- Go conversion uint32(n) for a Go int n: truncation modulo 2^32. -/
def uint32Int (n : Int) : Nat := (n.emod (2 ^ 32)).toNat

/-- Go conversion uint32(n) for a non-negative count (len of a slice). -/
def uint32Nat (n : Nat) : Nat := n % 2 ^ 32

/-- Go uint arithmetic is modulo 2^64 on a 64-bit platform. -/
def uint64Nat (n : Nat) : Nat := n % 2 ^ 64

/-! Constants from the spidev header file of the repository. -/

def spi_IOC_MESSAGE_base : Nat := 0x40006B00

def spi_IOC_MESSAGE_incr : Nat := 0x200000

def spi_IOC_RD_MODE : Nat := 0x80016B01

def spi_IOC_WR_MODE : Nat := 0x40016B01

def spi_IOC_RD_LSB_FIRST : Nat := 0x80016B02

def spi_IOC_WR_LSB_FIRST : Nat := 0x40016B02

def spi_IOC_RD_BITS_PER_WORD : Nat := 0x80016B03

def spi_IOC_WR_BITS_PER_WORD : Nat := 0x40016B03

def spi_IOC_RD_MAX_SPEED_HZ : Nat := 0x80046B04

def spi_IOC_WR_MAX_SPEED_HZ : Nat := 0x40046B04

/-- spi_IOC_MESSAGE(n) = spi_IOC_MESSAGE_base + n*spi_IOC_MESSAGE_incr,
computed in Go uint (64-bit wrap-around) arithmetic. -/
def spi_IOC_MESSAGE (n : Nat) : Nat :=
  uint64Nat (spi_IOC_MESSAGE_base + n * spi_IOC_MESSAGE_incr)

/-- The transfer descriptor struct spi_ioc_transfer, with every field of
the Go struct in source order.  Field values are Nats already reduced to
their field width by the code that builds the struct. -/
structure spi_ioc_transfer where
  tx_buf : Nat
  rx_buf : Nat
  len : Nat
  speed_hz : Nat
  delay_usecs : Nat
  bits_per_word : Nat
  cs_change : Nat
  tx_nbits : Nat
  rx_nbits : Nat
  pad : Nat
deriving DecidableEq, Repr

/-- A field of a binary layout: its name and width in bits. -/
structure FieldSpec where
  fname : String
  bits : Nat
deriving DecidableEq, Repr

/-- The binary layout of spi_ioc_transfer as declared in the source:
field order and bit widths, read off the Go struct declaration. -/
def spi_ioc_transfer_layout : List FieldSpec :=
  [⟨"tx_buf", 64⟩, ⟨"rx_buf", 64⟩,
   ⟨"len", 32⟩, ⟨"speed_hz", 32⟩,
   ⟨"delay_usecs", 16⟩, ⟨"bits_per_word", 8⟩, ⟨"cs_change", 8⟩,
   ⟨"tx_nbits", 8⟩, ⟨"rx_nbits", 8⟩, ⟨"pad", 16⟩]

/-- Modelled from the spec: the layout the specification describes for the
transfer descriptor (two 64-bit buffer addresses; two 32-bit fields for
length and speed; a 16-bit delay; three 8-bit fields for bits-per-word,
the chip-select-change flag, and reserved padding - no other fields).
Kept for comparison with the layout declared in the source. -/
def claimedTransferLayout : List FieldSpec :=
  [⟨"tx_buf", 64⟩, ⟨"rx_buf", 64⟩,
   ⟨"len", 32⟩, ⟨"speed_hz", 32⟩,
   ⟨"delay_usecs", 16⟩, ⟨"bits_per_word", 8⟩, ⟨"cs_change", 8⟩, ⟨"pad", 8⟩]

/-- Little-endian encoding of value v into w bytes. -/
def encodeLE (w v : Nat) : List Nat :=
  (List.range w).map (fun i => v / 2 ^ (8 * i) % 256)

/-- Byte serialization of a transfer descriptor, fields in declaration
order, each at its declared width. -/
def encodeTransfer (t : spi_ioc_transfer) : List Nat :=
  encodeLE 8 t.tx_buf ++ encodeLE 8 t.rx_buf ++
  encodeLE 4 t.len ++ encodeLE 4 t.speed_hz ++
  encodeLE 2 t.delay_usecs ++ encodeLE 1 t.bits_per_word ++
  encodeLE 1 t.cs_change ++ encodeLE 1 t.tx_nbits ++
  encodeLE 1 t.rx_nbits ++ encodeLE 2 t.pad

/-- The error kinds the library can produce, one constructor per
distinguishable failure. -/
inductive SpiError where
  | openErr (e : Nat)
  | deviceBusy
  | chipSelectErr (e : Nat)
  | lengthMismatch (snd rcv : Nat)
  | ioctlErr (e : Nat)
deriving DecidableEq, Repr

/-- Result of a call: normal return value, error return, or a Go runtime
panic (e.g. indexing an empty slice). -/
inductive Outcome (α : Type) where
  | ok (a : α)
  | err (e : SpiError)
  | panicked
deriving DecidableEq, Repr

/-- Argument passed through the device-control (ioctl) call. -/
inductive IoctlArg where
  | xfer (t : spi_ioc_transfer)
  | u8 (v : Nat)
  | u32 (v : Nat)
deriving DecidableEq, Repr

/-- Externally visible events, in the order the code issues them. -/
inductive Ev where
  | openFd
  | flock
  | closeFd
  | gpioClaim (pin : Int) (activeLow initialValue : Bool)
  | csWrite (b : Bool)
  | ioctl (op : Nat) (arg : IoctlArg)
deriving DecidableEq, Repr

/-- The Device struct: descriptor, configured speed (a Go int), and the
optional custom chip-select pin (nil interface when absent). -/
structure Device where
  fd : Int
  speed : Int
  cs : Option Int
deriving DecidableEq, Repr

/-- Environment for Transfer: the runtime addresses taken for the two
buffers and the errno the ioctl call returns (0 = success). -/
structure TransferEnv where
  sndAddr : Nat
  rcvAddr : Nat
  ioctlErrno : Nat
deriving DecidableEq, Repr

/-- Transfer(snd, rcv): length check, optional chip-select bracket,
descriptor construction, single ioctl.  Taking the address of the first
element of an empty slice is a Go runtime panic; the deferred
chip-select deassert still runs while the panic unwinds. -/
def Device.Transfer (dev : Device) (snd rcv : List Nat) (env : TransferEnv) :
    Outcome Unit × List Ev :=
  if snd.length = rcv.length then
    let pre : List Ev := if dev.cs.isSome then [Ev.csWrite true] else []
    let post : List Ev := if dev.cs.isSome then [Ev.csWrite false] else []
    match snd, rcv with
    | _ :: _, _ :: _ =>
      let tr : spi_ioc_transfer :=
        { tx_buf := uint64Nat env.sndAddr
          rx_buf := uint64Nat env.rcvAddr
          len := uint32Nat snd.length
          speed_hz := uint32Int dev.speed
          delay_usecs := 0
          bits_per_word := 8
          cs_change := 0
          tx_nbits := 0
          rx_nbits := 0
          pad := 0 }
      ((if env.ioctlErrno = 0 then Outcome.ok ()
        else Outcome.err (SpiError.ioctlErr env.ioctlErrno)),
       pre ++ [Ev.ioctl (spi_IOC_MESSAGE 1) (IoctlArg.xfer tr)] ++ post)
    | _, _ => (Outcome.panicked, pre ++ post)
  else
    (Outcome.err (SpiError.lengthMismatch snd.length rcv.length), [])

/-- Result of the non-blocking exclusive flock attempt. -/
inductive FlockOutcome where
  | ok
  | wouldBlock
  | fails (e : Nat)
deriving DecidableEq, Repr

/-- Environment for Open: descriptor value on success, errno of the OS
open when it fails, the flock outcome, and the gpio claim errno. -/
structure OpenEnv where
  fd : Int
  openErrno : Option Nat
  flockRes : FlockOutcome
  gpioErr : Option Nat
deriving DecidableEq, Repr

/-- Open(spiDevice, speed, customCS): open, unconditional non-blocking
exclusive flock, then for a non-zero customCS a gpio claim of that pin as
output (activeLow = true, initial value false); every failure after the
open closes the descriptor before returning. -/
def Open (spiDevice : String) (speed : Int) (customCS : Int) (env : OpenEnv) :
    Outcome Device × List Ev :=
  match env.openErrno with
  | some e => (Outcome.err (SpiError.openErr e), [Ev.openFd])
  | none =>
    match env.flockRes with
    | FlockOutcome.ok =>
      if customCS = 0 then
        (Outcome.ok ⟨env.fd, speed, none⟩, [Ev.openFd, Ev.flock])
      else
        match env.gpioErr with
        | some e =>
          (Outcome.err (SpiError.chipSelectErr e),
           [Ev.openFd, Ev.flock, Ev.gpioClaim customCS true false, Ev.closeFd])
        | none =>
          (Outcome.ok ⟨env.fd, speed, some customCS⟩,
           [Ev.openFd, Ev.flock, Ev.gpioClaim customCS true false])
    | FlockOutcome.wouldBlock =>
      (Outcome.err SpiError.deviceBusy, [Ev.openFd, Ev.flock, Ev.closeFd])
    | FlockOutcome.fails e =>
      (Outcome.err (SpiError.openErr e), [Ev.openFd, Ev.flock, Ev.closeFd])

/-- SetBitsPerWord(n): converts n to uint8 and issues the write ioctl;
the Device itself is not modified. -/
def Device.SetBitsPerWord (dev : Device) (n : Int) (errno : Nat) :
    (Outcome Unit × Device) × List Ev :=
  ((if errno = 0 then Outcome.ok () else Outcome.err (SpiError.ioctlErr errno), dev),
   [Ev.ioctl spi_IOC_WR_BITS_PER_WORD (IoctlArg.u8 (uint8Int n))])

/-- SetMaxSpeed(n): converts n to uint32 and issues the write ioctl; the
Device itself (in particular its speed field) is not modified. -/
def Device.SetMaxSpeed (dev : Device) (n : Int) (errno : Nat) :
    (Outcome Unit × Device) × List Ev :=
  ((if errno = 0 then Outcome.ok () else Outcome.err (SpiError.ioctlErr errno), dev),
   [Ev.ioctl spi_IOC_WR_MAX_SPEED_HZ (IoctlArg.u32 (uint32Int n))])

/-- Result of a Read call in the oracle model. -/
inductive ReadResult where
  | ok
  | err (e : Nat)
  | outOfOracle
deriving DecidableEq, Repr

/-- The read loop of Read: while off < len, issue an underlying read
(whose result the oracle list supplies); an error returns immediately,
a byte count advances the offset.  The oracle being exhausted stands for
a run about which the model says nothing further. -/
def readLoop (len off : Nat) (rs : List (Except Nat Nat)) : ReadResult × Nat :=
  if off < len then
    match rs with
    | [] => (ReadResult.outOfOracle, off)
    | Except.error e :: _ => (ReadResult.err e, off)
    | Except.ok n :: rest => readLoop len (off + n) rest
  else
    (ReadResult.ok, off)

/-- Read(buf): optional chip-select bracket around the read loop over a
buffer of length bufLen.  Result is the loop result together with the
final offset (total bytes collected). -/
def Device.Read (dev : Device) (bufLen : Nat) (rs : List (Except Nat Nat)) :
    (ReadResult × Nat) × List Ev :=
  let pre : List Ev := if dev.cs.isSome then [Ev.csWrite true] else []
  let post : List Ev := if dev.cs.isSome then [Ev.csWrite false] else []
  (readLoop bufLen 0 rs, pre ++ post)

/-- A valid run of the underlying read oracle against a buffer of length
len starting at offset off: every byte count the loop will consume is
positive and no larger than the remaining slice passed to that read
(the OS read contract). -/
def validFrom (len off : Nat) : List (Except Nat Nat) → Bool
  | [] => true
  | Except.error _ :: _ => true
  | Except.ok n :: rest =>
    if off < len then
      decide (0 < n) && decide (n ≤ len - off) && validFrom len (off + n) rest
    else
      true

/-- The final logic level the chip-select line is left at by a trace
(false when it was never driven). -/
def csHigh (tr : List Ev) : Bool :=
  tr.foldl (fun s e => match e with | Ev.csWrite b => b | _ => s) false

/-- The event trace of a Transfer has one of four shapes: empty (length
mismatch), bare chip-select bracket (empty-buffer panic path), one ioctl,
or one ioctl inside the chip-select bracket; the descriptor submitted is
always the one built from the device speed and the call arguments. -/
theorem transfer_trace_shape (dev : Device) (snd rcv : List Nat) (env : TransferEnv) :
    (dev.Transfer snd rcv env).2 = [] ∨
    (dev.Transfer snd rcv env).2 = [Ev.csWrite true, Ev.csWrite false] ∨
    (dev.Transfer snd rcv env).2 =
      [Ev.ioctl (spi_IOC_MESSAGE 1) (IoctlArg.xfer
        ⟨uint64Nat env.sndAddr, uint64Nat env.rcvAddr, uint32Nat snd.length,
         uint32Int dev.speed, 0, 8, 0, 0, 0, 0⟩)] ∨
    (dev.Transfer snd rcv env).2 =
      [Ev.csWrite true,
       Ev.ioctl (spi_IOC_MESSAGE 1) (IoctlArg.xfer
        ⟨uint64Nat env.sndAddr, uint64Nat env.rcvAddr, uint32Nat snd.length,
         uint32Int dev.speed, 0, 8, 0, 0, 0, 0⟩),
       Ev.csWrite false] := by
  by_cases h : snd.length = rcv.length
  · cases snd with
    | nil =>
      cases rcv with
      | nil =>
        cases hcs : dev.cs with
        | none => left; simp [Device.Transfer, hcs]
        | some p => right; left; simp [Device.Transfer, hcs]
      | cons r rs => simp at h
    | cons s ss =>
      cases rcv with
      | nil => simp at h
      | cons r rs =>
        cases hcs : dev.cs with
        | none => right; right; left; simp [Device.Transfer, h, hcs]
        | some p => right; right; right; simp [Device.Transfer, h, hcs]
  · left; simp [Device.Transfer, h]

/-- The read loop, run on a valid oracle with enough entries, never runs
out of oracle; on success it has collected exactly len bytes, and an
error result comes from an error entry of the oracle. -/
theorem readLoop_complete (rs : List (Except Nat Nat)) : ∀ off len,
    validFrom len off rs = true → off ≤ len → len - off ≤ rs.length →
    (readLoop len off rs).1 ≠ ReadResult.outOfOracle ∧
    ((readLoop len off rs).1 = ReadResult.ok → (readLoop len off rs).2 = len) ∧
    (∀ e, (readLoop len off rs).1 = ReadResult.err e → Except.error e ∈ rs) := by
  induction rs with
  | nil =>
    intro off len _ hle hlen
    simp only [List.length_nil, Nat.le_zero] at hlen
    have hoff : len = off := by omega
    subst hoff
    simp [readLoop]
  | cons r rest ih =>
    intro off len hv hle hlen
    by_cases h : off < len
    · cases r with
      | error e =>
        refine ⟨by simp [readLoop, h], by simp [readLoop, h], ?_⟩
        intro e2 he2
        simp [readLoop, h] at he2
        simp [he2]
      | ok n =>
        have hstep : readLoop len off (Except.ok n :: rest) = readLoop len (off + n) rest := by
          simp [readLoop, h]
        have hv' := hv
        simp only [validFrom, h, if_true, if_pos, Bool.and_eq_true, decide_eq_true_eq] at hv'
        obtain ⟨⟨hn, hnle⟩, hrest⟩ := hv'
        have hrec := ih (off + n) len hrest (by omega)
          (by simp only [List.length_cons] at hlen; omega)
        refine ⟨by rw [hstep]; exact hrec.1, by rw [hstep]; exact hrec.2.1, ?_⟩
        intro e2 he2
        rw [hstep] at he2
        exact List.mem_cons_of_mem _ (hrec.2.2 e2 he2)
    · cases r <;>
      · refine ⟨by simp [readLoop, h], ?_, by simp [readLoop, h]⟩
        intro _
        have hoff : off = len := le_antisymm hle (by omega)
        subst hoff
        simp [readLoop, h]

/-- C1: when the send and receive buffers have different lengths,
Transfer returns the length-mismatch error and its event trace is empty:
no ioctl is issued and the chip-select is never driven. -/
theorem c1_transfer_mismatch_fails_early (dev : Device) (snd rcv : List Nat)
    (env : TransferEnv) (h : snd.length ≠ rcv.length) :
    dev.Transfer snd rcv env =
      (Outcome.err (SpiError.lengthMismatch snd.length rcv.length), []) := by
  simp [Device.Transfer, h]

theorem c1_transfer_mismatch_fails_early_witness :
    Device.Transfer ⟨3, 100, none⟩ [1] [] ⟨0, 0, 0⟩ =
      (Outcome.err (SpiError.lengthMismatch 1 0), []) :=
  c1_transfer_mismatch_fails_early ⟨3, 100, none⟩ [1] [] ⟨0, 0, 0⟩ (by decide)

/-- C2: on a Device with a chip-select configured, Transfer never leaves
the chip-select asserted at return, and whenever the device-control call
is issued (equal-length non-empty buffers) the trace is exactly
assert, ioctl, deassert, in that order, with the ioctl result returned
unchanged - also when the ioctl fails. -/
theorem c2_transfer_cs_bracket (dev : Device) (pin : Int) (snd rcv : List Nat)
    (env : TransferEnv) (hcs : dev.cs = some pin) :
    csHigh (dev.Transfer snd rcv env).2 = false ∧
    (snd.length = rcv.length → snd ≠ [] →
      ∃ t, (dev.Transfer snd rcv env).2 =
          [Ev.csWrite true, Ev.ioctl (spi_IOC_MESSAGE 1) (IoctlArg.xfer t),
           Ev.csWrite false] ∧
        (dev.Transfer snd rcv env).1 =
          (if env.ioctlErrno = 0 then Outcome.ok ()
           else Outcome.err (SpiError.ioctlErr env.ioctlErrno))) := by
  by_cases h : snd.length = rcv.length
  · cases snd with
    | nil =>
      cases rcv with
      | nil =>
        refine ⟨by simp [Device.Transfer, hcs, csHigh], ?_⟩
        intro _ hne
        exact absurd rfl hne
      | cons r rs => simp at h
    | cons s ss =>
      cases rcv with
      | nil => simp at h
      | cons r rs =>
        refine ⟨by simp [Device.Transfer, h, hcs, csHigh], ?_⟩
        intro _ _
        refine ⟨⟨uint64Nat env.sndAddr, uint64Nat env.rcvAddr, uint32Nat (rs.length + 1),
          uint32Int dev.speed, 0, 8, 0, 0, 0, 0⟩, ?_, ?_⟩ <;>
          simp [Device.Transfer, h, hcs]
  · refine ⟨by simp [Device.Transfer, h, csHigh], ?_⟩
    intro h2
    exact absurd h2 h

theorem c2_transfer_cs_bracket_witness :
    csHigh (Device.Transfer ⟨3, 100, some 8⟩ [1] [2] ⟨10, 20, 7⟩).2 = false ∧
    ∃ t, (Device.Transfer ⟨3, 100, some 8⟩ [1] [2] ⟨10, 20, 7⟩).2 =
        [Ev.csWrite true, Ev.ioctl (spi_IOC_MESSAGE 1) (IoctlArg.xfer t),
         Ev.csWrite false] ∧
      (Device.Transfer ⟨3, 100, some 8⟩ [1] [2] ⟨10, 20, 7⟩).1 =
        (if (7 : Nat) = 0 then Outcome.ok ()
         else Outcome.err (SpiError.ioctlErr 7)) := by
  have h := c2_transfer_cs_bracket ⟨3, 100, some 8⟩ 8 [1] [2] ⟨10, 20, 7⟩ rfl
  exact ⟨h.1, h.2 rfl (by decide)⟩

theorem c4_transfer_empty_cex :
    (Device.Transfer ⟨3, 100, none⟩ [] [] ⟨0, 0, 0⟩).1 = Outcome.panicked ∧
    (Device.Transfer ⟨3, 100, none⟩ [] [] ⟨0, 0, 0⟩).1 ≠
      Outcome.err (SpiError.lengthMismatch 0 0) ∧
    (Device.Transfer ⟨3, 100, none⟩ [] [] ⟨0, 0, 0⟩).2 = [] := by
  decide

/-- C4 (amended): for empty equal-length buffers the length check passes
and Transfer hits the Go runtime panic of indexing an empty slice; it
does not return a length-mismatch error, and no ioctl is ever issued
(nor is the chip-select left asserted). -/
theorem c4_transfer_empty_panics (dev : Device) (env : TransferEnv) :
    (dev.Transfer [] [] env).1 = Outcome.panicked ∧
    (∀ (op : Nat) (a : IoctlArg), Ev.ioctl op a ∉ (dev.Transfer [] [] env).2) ∧
    csHigh (dev.Transfer [] [] env).2 = false := by
  cases hcs : dev.cs <;> simp [Device.Transfer, hcs, csHigh]

theorem c3_setMaxSpeed_not_copied_cex :
    (Device.SetMaxSpeed ⟨3, 100, none⟩ 200 0).1.1 = Outcome.ok () ∧
    ((Device.SetMaxSpeed ⟨3, 100, none⟩ 200 0).1.2.Transfer [1] [0] ⟨5, 6, 0⟩).2 =
      [Ev.ioctl (spi_IOC_MESSAGE 1) (IoctlArg.xfer ⟨5, 6, 1, 100, 0, 8, 0, 0, 0, 0⟩)] ∧
    (100 : Nat) ≠ 200 := by
  decide

/-- C3 (amended): SetMaxSpeed(n) only issues the write-max-speed ioctl
with uint32(n); it leaves the Device - in particular its configured
speed - unchanged, so every subsequent Transfer still builds its
descriptor with speed_hz = uint32(speed fixed at Open), not n. -/
theorem c3_setMaxSpeed_leaves_device_speed (dev : Device) (n : Int) (errno : Nat) :
    (dev.SetMaxSpeed n errno).1.2 = dev ∧
    (dev.SetMaxSpeed n errno).2 =
      [Ev.ioctl spi_IOC_WR_MAX_SPEED_HZ (IoctlArg.u32 (uint32Int n))] ∧
    ∀ (snd rcv : List Nat) (env : TransferEnv) (op : Nat) (a : IoctlArg),
      Ev.ioctl op a ∈ (((dev.SetMaxSpeed n errno).1.2).Transfer snd rcv env).2 →
      ∃ t, a = IoctlArg.xfer t ∧ t.speed_hz = uint32Int dev.speed := by
  refine ⟨rfl, rfl, ?_⟩
  intro snd rcv env op a hmem
  have hdev : (dev.SetMaxSpeed n errno).1.2 = dev := rfl
  rw [hdev] at hmem
  rcases transfer_trace_shape dev snd rcv env with h | h | h | h <;> rw [h] at hmem <;>
    simp at hmem <;> exact ⟨_, hmem.2, rfl⟩

theorem c3_setMaxSpeed_leaves_device_speed_witness :
    (Device.SetMaxSpeed ⟨3, 100, none⟩ 200 0).1.2 = ⟨3, 100, none⟩ ∧
    ∃ t, IoctlArg.xfer (⟨5, 6, 1, 100, 0, 8, 0, 0, 0, 0⟩ : spi_ioc_transfer) =
        IoctlArg.xfer t ∧ t.speed_hz = uint32Int (100 : Int) := by
  have h := c3_setMaxSpeed_leaves_device_speed ⟨3, 100, none⟩ 200 0
  exact ⟨h.1, h.2.2 [1] [0] ⟨5, 6, 0⟩ (spi_IOC_MESSAGE 1)
    (IoctlArg.xfer ⟨5, 6, 1, 100, 0, 8, 0, 0, 0, 0⟩) (by decide)⟩

theorem c5_open_lock_not_skipped_cex :
    Ev.flock ∈ (Open ("/dev/spidev0.0") 500000 8 ⟨4, none, FlockOutcome.wouldBlock, none⟩).2 ∧
    (Open ("/dev/spidev0.0") 500000 8 ⟨4, none, FlockOutcome.wouldBlock, none⟩).1 =
      Outcome.err SpiError.deviceBusy := by
  decide

/-- C5 (amended): Open attempts the non-blocking exclusive lock whenever
the OS open succeeded, also when a custom chip-select pin is requested;
only after the lock succeeds does a non-zero customCS lead to the
Chip-Select Controller claiming that pin as a digital output, initially
deasserted. -/
theorem c5_open_always_locks (p : String) (speed customCS : Int) (env : OpenEnv)
    (hopen : env.openErrno = none) :
    Ev.flock ∈ (Open p speed customCS env).2 ∧
    (env.flockRes = FlockOutcome.ok → customCS ≠ 0 → env.gpioErr = none →
      (Open p speed customCS env).1 = Outcome.ok ⟨env.fd, speed, some customCS⟩ ∧
      Ev.gpioClaim customCS true false ∈ (Open p speed customCS env).2) := by
  obtain ⟨fd, oe, fr, ge⟩ := env
  simp only at hopen
  subst hopen
  constructor
  · cases fr <;> by_cases h : customCS = 0 <;> cases ge <;> simp [Open, h]
  · intro hfr hcs hge
    simp only at hfr hge
    subst hfr
    subst hge
    simp [Open, hcs]

theorem c5_open_always_locks_witness :
    Ev.flock ∈ (Open ("p") 1 8 ⟨4, none, FlockOutcome.ok, none⟩).2 ∧
    (Open ("p") 1 8 ⟨4, none, FlockOutcome.ok, none⟩).1 = Outcome.ok ⟨4, 1, some 8⟩ ∧
    Ev.gpioClaim 8 true false ∈ (Open ("p") 1 8 ⟨4, none, FlockOutcome.ok, none⟩).2 := by
  have h := c5_open_always_locks ("p") 1 8 ⟨4, none, FlockOutcome.ok, none⟩ rfl
  exact ⟨h.1, (h.2 rfl (by decide) rfl).1, (h.2 rfl (by decide) rfl).2⟩

/-- C6: whenever Open fails after the OS open succeeded (lock already
held, other lock failure, or chip-select claim failure), the descriptor
is closed before returning, and the error is the dedicated busy error
exactly in the lock-contention case. -/
theorem c6_open_failure_closes (p : String) (speed customCS : Int) (env : OpenEnv)
    (hopen : env.openErrno = none) (e : SpiError)
    (he : (Open p speed customCS env).1 = Outcome.err e) :
    Ev.closeFd ∈ (Open p speed customCS env).2 ∧
    (e = SpiError.deviceBusy ↔ env.flockRes = FlockOutcome.wouldBlock) := by
  obtain ⟨fd, oe, fr, ge⟩ := env
  simp only at hopen
  subst hopen
  cases fr with
  | ok =>
    by_cases h : customCS = 0
    · simp [Open, h] at he
    · cases ge with
      | none => simp [Open, h] at he
      | some g =>
        simp [Open, h] at he
        subst he
        simp [Open, h]
  | wouldBlock =>
    simp [Open] at he
    subst he
    simp [Open]
  | fails f =>
    simp [Open] at he
    subst he
    simp [Open]

theorem c6_open_failure_closes_witness :
    Ev.closeFd ∈ (Open ("p") 1 0 ⟨4, none, FlockOutcome.wouldBlock, none⟩).2 ∧
    (SpiError.deviceBusy = SpiError.deviceBusy ↔
      FlockOutcome.wouldBlock = FlockOutcome.wouldBlock) :=
  c6_open_failure_closes ("p") 1 0 ⟨4, none, FlockOutcome.wouldBlock, none⟩ rfl
    SpiError.deviceBusy (by decide)

theorem c7_layout_cex : spi_ioc_transfer_layout ≠ claimedTransferLayout := by
  intro h
  have hlen := congrArg List.length h
  simp [spi_ioc_transfer_layout, claimedTransferLayout] at hlen

/-- C7 (amended): the transfer descriptor layout is, in order, two
64-bit buffer addresses, two 32-bit fields for length and speed, one
16-bit delay field, FOUR 8-bit fields (bits-per-word, chip-select-change
flag, tx_nbits, rx_nbits), and a trailing 16-bit pad - 256 bits in all,
and the byte serialization of any descriptor is exactly that long. -/
theorem c7_layout_corrected :
    spi_ioc_transfer_layout =
      [⟨"tx_buf", 64⟩, ⟨"rx_buf", 64⟩, ⟨"len", 32⟩, ⟨"speed_hz", 32⟩,
       ⟨"delay_usecs", 16⟩, ⟨"bits_per_word", 8⟩, ⟨"cs_change", 8⟩,
       ⟨"tx_nbits", 8⟩, ⟨"rx_nbits", 8⟩, ⟨"pad", 16⟩] ∧
    (spi_ioc_transfer_layout.map (fun f => f.bits)).sum = 256 ∧
    ∀ t : spi_ioc_transfer,
      8 * (encodeTransfer t).length = (spi_ioc_transfer_layout.map (fun f => f.bits)).sum := by
  refine ⟨rfl, by decide, ?_⟩
  intro t
  simp [encodeTransfer, encodeLE, spi_ioc_transfer_layout]

/-- C8: the submit-transfer-segments request code for n segments is
base + n * increment (0x40006B00 + n * 0x200000, exact as long as the
Go uint arithmetic does not wrap), for one segment it is 0x40206B00,
and every ioctl a Transfer issues carries exactly that single-segment
code. -/
theorem c8_ioc_message_code (n : Nat) (hn : n ≤ 2 ^ 40) :
    spi_IOC_MESSAGE n = spi_IOC_MESSAGE_base + n * spi_IOC_MESSAGE_incr ∧
    spi_IOC_MESSAGE 1 = 0x40206B00 ∧
    ∀ (dev : Device) (snd rcv : List Nat) (env : TransferEnv) (op : Nat) (a : IoctlArg),
      Ev.ioctl op a ∈ (dev.Transfer snd rcv env).2 → op = 0x40206B00 := by
  refine ⟨?_, by decide, ?_⟩
  · have hm : n * spi_IOC_MESSAGE_incr ≤ 2 ^ 40 * spi_IOC_MESSAGE_incr :=
      Nat.mul_le_mul_right _ hn
    simp only [spi_IOC_MESSAGE, uint64Nat, spi_IOC_MESSAGE_base,
      spi_IOC_MESSAGE_incr] at hm ⊢
    omega
  · intro dev snd rcv env op a hmem
    rcases transfer_trace_shape dev snd rcv env with h | h | h | h <;> rw [h] at hmem <;>
      simp at hmem <;> rw [hmem.1] <;> decide

theorem c8_ioc_message_code_witness :
    spi_IOC_MESSAGE 2 = spi_IOC_MESSAGE_base + 2 * spi_IOC_MESSAGE_incr ∧
    spi_IOC_MESSAGE 1 = 0x40206B00 := by
  have h := c8_ioc_message_code 2 (by norm_num)
  exact ⟨h.1, h.2.1⟩

/-- C9: Read issues underlying reads, accumulating byte counts at
increasing offsets, until the whole buffer length is collected or an
underlying read fails; on a valid oracle (positive byte counts no larger
than the remaining slice) with at least bufLen entries, the loop
terminates with a definite result, a success has collected exactly
bufLen bytes, and an error result is one an underlying read returned. -/
theorem c9_read_accumulates (dev : Device) (bufLen : Nat)
    (rs : List (Except Nat Nat))
    (hv : validFrom bufLen 0 rs = true) (hlen : bufLen ≤ rs.length) :
    (dev.Read bufLen rs).1.1 ≠ ReadResult.outOfOracle ∧
    ((dev.Read bufLen rs).1.1 = ReadResult.ok → (dev.Read bufLen rs).1.2 = bufLen) ∧
    (∀ e, (dev.Read bufLen rs).1.1 = ReadResult.err e → Except.error e ∈ rs) := by
  have h := readLoop_complete rs 0 bufLen hv (Nat.zero_le _) (by simpa using hlen)
  simpa [Device.Read] using h

theorem c9_read_accumulates_witness :
    (Device.Read ⟨3, 100, none⟩ 5 [Except.ok 3, Except.ok 1, Except.ok 1,
        Except.error 7, Except.ok 9]).1.1 ≠ ReadResult.outOfOracle ∧
    ((Device.Read ⟨3, 100, none⟩ 5 [Except.ok 3, Except.ok 1, Except.ok 1,
        Except.error 7, Except.ok 9]).1.1 = ReadResult.ok →
      (Device.Read ⟨3, 100, none⟩ 5 [Except.ok 3, Except.ok 1, Except.ok 1,
        Except.error 7, Except.ok 9]).1.2 = 5) ∧
    (∀ e, (Device.Read ⟨3, 100, none⟩ 5 [Except.ok 3, Except.ok 1, Except.ok 1,
        Except.error 7, Except.ok 9]).1.1 = ReadResult.err e →
      Except.error e ∈ [Except.ok 3, Except.ok 1, Except.ok 1,
        Except.error 7, Except.ok 9]) :=
  c9_read_accumulates ⟨3, 100, none⟩ 5
    [Except.ok 3, Except.ok 1, Except.ok 1, Except.error 7, Except.ok 9]
    (by decide) (by decide)

/-- C10: SetBitsPerWord and SetMaxSpeed perform no local range check:
the value written through the ioctl is the argument reduced modulo 2^8
resp. 2^32 (Go integer conversion), so 256 wraps to 0 as a word size and
-1 wraps to 4294967295 as a speed, and the call result depends only on
the ioctl errno. -/
theorem c10_set_calls_wrap (dev : Device) (n : Int) (errno : Nat) :
    (dev.SetBitsPerWord n errno).2 =
      [Ev.ioctl spi_IOC_WR_BITS_PER_WORD (IoctlArg.u8 ((n.emod (2 ^ 8)).toNat))] ∧
    (dev.SetMaxSpeed n errno).2 =
      [Ev.ioctl spi_IOC_WR_MAX_SPEED_HZ (IoctlArg.u32 ((n.emod (2 ^ 32)).toNat))] ∧
    (dev.SetBitsPerWord 256 errno).2 =
      [Ev.ioctl spi_IOC_WR_BITS_PER_WORD (IoctlArg.u8 0)] ∧
    (dev.SetMaxSpeed (-1) errno).2 =
      [Ev.ioctl spi_IOC_WR_MAX_SPEED_HZ (IoctlArg.u32 4294967295)] ∧
    (dev.SetBitsPerWord n errno).1.1 =
      (if errno = 0 then Outcome.ok () else Outcome.err (SpiError.ioctlErr errno)) ∧
    (dev.SetMaxSpeed n errno).1.1 =
      (if errno = 0 then Outcome.ok () else Outcome.err (SpiError.ioctlErr errno)) := by
  refine ⟨rfl, rfl, ?_, ?_, rfl, rfl⟩
  · simp only [Device.SetBitsPerWord, uint8Int]
    decide
  · simp only [Device.SetMaxSpeed, uint32Int]
    decide

end Spi
